import Mathlib

/-!
# Verification of the PDF text-extraction / overlay-editing / reflow core

This development embeds the core algorithms of the repository (a React PDF
editor) as executable Lean definitions and proves properties about them.

Conventions of the embedding:
* JavaScript numbers are modelled exactly: integer document-space quantities
  (text-run coordinates, reflow cursor positions) as `Int`, and quantities that
  are multiplied by the fractional zoom factor (overlay geometry) as `Rat`.
  Every comparison and arithmetic operation performed by the source is exact
  at the inputs considered here, so no floating-point rounding is involved.
* `Array.prototype.sort` (guaranteed stable since ES2019) is modelled as a
  stable insertion sort over the source's comparator.  For a consistent
  comparator a stable sort is unique, so the model agrees with any engine.
* External collaborators (pdf.js `convertToViewportPoint`, jsPDF
  `splitTextToSize`, the Gemini API) are parameters of the embedded functions.
-/

namespace PdfEditor

/-! ## Definitions: reading-order reconstruction (src/unnamed/part_002, `extractTextFromPdf`) -/

/-- Model of JavaScript `Math.abs` on exact integers. -/
def mabs (d : Int) : Int := if d < 0 then -d else d

/-- One positioned glyph run as seen by the extraction walk in
`extractTextFromPdf` (src/unnamed/part_002): the run's string together with the
two translation entries of its transform, `x = transform[4]` and
`y = transform[5]`. -/
structure RunItem where
  str : String
  x : Int
  y : Int
deriving DecidableEq, Repr, Inhabited

/-- The comparator passed to `items.sort` in `extractTextFromPdf`
(src/unnamed/part_002 lines 30-35):

```js
items.sort((a, b) => {
  if (Math.abs(a.transform[5] - b.transform[5]) > 5) {
      return b.transform[5] - a.transform[5]; // Top to bottom
  }
  return a.transform[4] - b.transform[4]; // Left to right
});
``` -/
def runCmp (a b : RunItem) : Int :=
  if mabs (a.y - b.y) > 5 then b.y - a.y else a.x - b.x

/-- `a` and `b` are treated as lying on the same line by the comparator:
their Y coordinates differ by at most 5 document units. -/
def sameLine (a b : RunItem) : Prop := mabs (a.y - b.y) ≤ 5

instance (a b : RunItem) : Decidable (sameLine a b) := by
  unfold sameLine; infer_instance

/-- Stable insertion step: insert `a` (which precedes the elements of the list
in the original array order) before the first element it does not compare
after.  Together with `jsSort` this models the stable
`Array.prototype.sort` call of the source. -/
def jsInsert (a : RunItem) : List RunItem → List RunItem
  | [] => [a]
  | b :: l => if runCmp a b ≤ 0 then a :: b :: l else b :: jsInsert a l

/-- Model of `items.sort(comparator)`: a stable comparison sort. -/
def jsSort : List RunItem → List RunItem
  | [] => []
  | a :: l => jsInsert a (jsSort l)

/-- Model of JavaScript `s.endsWith(c)` for a one-character suffix `c`:
last-character equality (for a one-unit suffix the two are the same test, and
both `' '` and `'\n'` are single UTF-16 units). -/
def endsWithCh (s : String) (c : Char) : Bool :=
  s.data.getLast? == some c

/-- Model of the guard `lastY !== undefined && Math.abs(y - lastY) > t`. -/
def gapOver (lastY : Option Int) (y t : Int) : Bool :=
  match lastY with
  | some ly => decide (mabs (y - ly) > t)
  | none => false

/-- The separator the walk in `extractTextFromPdf` (src/unnamed/part_002
lines 37-50) prepends before appending the next run's string, given the
tracked `lastY`, the text accumulated so far, and the next run's Y:

```js
if (lastY !== undefined && Math.abs(item.transform[5] - lastY) > 10) {
    pageText += '\n';
} else if (lastY !== undefined && Math.abs(item.transform[5] - lastY) > 100) {
     pageText += '\n\n';
} else if (pageText.length > 0 && !pageText.endsWith(' ') && !pageText.endsWith('\n')) {
     pageText += ' ';
}
``` -/
def sepChoice (lastY : Option Int) (acc : String) (y : Int) : String :=
  if gapOver lastY y 10 then "\n"
  else if gapOver lastY y 100 then "\n\n"
  else if acc.length > 0 && !endsWithCh acc ' ' && !endsWithCh acc '\n' then " "
  else ""

/-- One step of the extraction walk: append the separator and the run's
string, and record the run's Y as the new `lastY`. -/
def stepRun (st : String × Option Int) (it : RunItem) : String × Option Int :=
  (st.1 ++ sepChoice st.2 st.1 it.y ++ it.str, some it.y)

/-- The per-page linear text produced by `extractTextFromPdf`: sort with the
comparator, then walk accumulating separators and run strings. -/
def pageTextOf (items : List RunItem) : String :=
  ((jsSort items).foldl stepRun ("", none)).1

/-- The ordering property claimed of the reconstructed sequence: for a pair
`(u, v)` appearing in this order, if the two runs are on the same line
(|ΔY| ≤ 5) then X is non-decreasing, and if they are on different lines then
Y is non-increasing. -/
def orderedOut (u v : RunItem) : Prop :=
  (sameLine u v → u.x ≤ v.x) ∧ (¬sameLine u v → v.y ≤ u.y)

instance (u v : RunItem) : Decidable (orderedOut u v) := by
  unfold orderedOut; infer_instance

/-! ## Definitions: overlay geometry and per-item editing
(src/components/EditablePage.tsx, src/unnamed/part_003) -/

/-- A 6-entry affine transform `[a, b, c, d, e, f]` = (scale-x, skew-y,
skew-x, scale-y, translate-x, translate-y), as carried by pdf.js text items;
entries are document-space quantities, modelled exactly as integers.  (Only
the fractional zoom factor, which multiplies them in the overlay, needs
`Rat`.) -/
structure Transform6 where
  a : Int
  b : Int
  c : Int
  d : Int
  e : Int
  f : Int
deriving DecidableEq, Repr, Inhabited

/-- The `TextItem` shape from src/unnamed/part_000 (the second `types.ts`):
`{ str, dir, width, height, transform, fontName, hasEncoding }`. -/
structure TextItem where
  str : String
  dir : String
  width : Int
  height : Int
  transform : Transform6
  fontName : String
  hasEncoding : Bool
deriving DecidableEq, Repr, Inhabited

/-- The style fields the overlay computes for one text item
(src/components/EditablePage.tsx lines 117-140). -/
structure ItemStyle where
  left : Rat
  top : Rat
  fontSize : Rat
  fontFamily : String
deriving DecidableEq, Repr, Inhabited

/-- The per-item placement computation of `EditablePage`
(src/components/EditablePage.tsx lines 117-130; identically in
src/unnamed/part_003 lines 116-137):

```js
const [x, y] = viewport.convertToViewportPoint(item.transform[4], item.transform[5]);
const fontSize = item.transform[0] * scale;
const fontHeight = fontSize;
const top = y - fontHeight;
... style = { left: x, top: top, fontSize: fontSize, fontFamily: item.fontName || 'sans-serif', ... }
```

`v` is the pair returned by the external pdf.js `convertToViewportPoint`. -/
def renderItemStyle (item : TextItem) (scale : Rat) (v : Rat × Rat) : ItemStyle :=
  { left := v.1
    top := v.2 - (item.transform.a : Rat) * scale
    fontSize := (item.transform.a : Rat) * scale
    fontFamily := if item.fontName = "" then "sans-serif" else item.fontName }

/-- `handleItemChange` of `EditablePage` (src/components/EditablePage.tsx
lines 73-80; identically src/unnamed/part_003 lines 76-84), restricted to its
effect on the items array:

```js
const newItems = [...textItems];
newItems[index] = { ...newItems[index], str: newValue };
```

In the component the index always comes from mapping over the rendered items,
hence is in bounds; the out-of-bounds case never arises and is modelled as a
no-op. -/
def handleItemChangeItems (items : List TextItem) (index : Nat) (newValue : String) :
    List TextItem :=
  match items[index]? with
  | some it => items.set index { it with str := newValue }
  | none => items

/-- The page text both `renderPage` and `handleItemChange` publish to the
parent via `onTextChange` (src/components/EditablePage.tsx lines 59 and 78):
`items.map(item => item.str).join(' ')`. -/
def rawJoin (items : List TextItem) : String :=
  String.intercalate " " (items.map (·.str))

/-- View of a `TextItem` as the extraction walk's run (string plus the two
translation entries of its transform). -/
def textItemToRun (it : TextItem) : RunItem :=
  ⟨it.str, it.transform.e, it.transform.f⟩

/-- The reading-order reconstruction of §4.3 (the `extractTextFromPdf`
algorithm) applied to a page's current text items. -/
def readingOrderTextOf (items : List TextItem) : String :=
  pageTextOf (items.map textItemToRun)

/-! ## Definitions: multi-page editing state machine
(`EditablePage` component state plus the `App` in src/types.ts (second part):
`pagesData` and `handlePageTextChange`) -/

/-- The mutable state of one `EditablePage` component instance
(src/components/EditablePage.tsx lines 20-24): its `textItems` array and its
own `editingIndex` (`useState<number | null>`); each page instance holds an
independent copy of this state. -/
structure PageState where
  textItems : List TextItem
  editingIndex : Option Nat
deriving Repr, Inhabited

/-- The joint state of the multi-page editor: one `PageState` per page
number, plus the parent `App`'s `pagesData` map (page number → published
text, `none` when the page has not published yet). -/
structure AppState where
  pages : Nat → PageState
  pagesData : Nat → Option String

/-- Events driving the editor, derived from the component's handlers:
* `extractDone p items` — the async `renderPage` effect completes for page
  `p`: `setTextItems(items)` followed by
  `onTextChange(p, items.map(i => i.str).join(' '))`;
* `clickItem p idx sel` — `handleItemClick` on item `idx` of page `p`, with
  `sel` the result of the non-empty-selection test;
* `blurCommit p idx v` — blur of the editing surface of item `idx` on page
  `p` with edited content `v`: `handleItemChange(idx, v)` then
  `setEditingIndex(null)`.  The browser decides when blur events fire; the
  model therefore allows them at any point at which the item is editing. -/
inductive Ev where
  | extractDone (p : Nat) (items : List TextItem)
  | clickItem (p : Nat) (idx : Nat) (sel : Bool)
  | blurCommit (p : Nat) (idx : Nat) (v : String)

/-- Update one page's slot of the per-page state map. -/
def setPage (f : Nat → PageState) (p : Nat) (st : PageState) : Nat → PageState :=
  fun q => if q = p then st else f q

/-- Update one page's slot of `pagesData` (the `App`'s
`setPagesData(prev => ({ ...prev, [pageNum]: text }))`). -/
def setPageData (f : Nat → Option String) (p : Nat) (t : String) : Nat → Option String :=
  fun q => if q = p then some t else f q

/-- One transition of the editor model. `extractDone` installs the freshly
extracted items and publishes their raw-order join; `clickItem` enters edit
mode for an existing item unless the click carried a text selection;
`blurCommit` replaces the item's `str`, publishes the raw-order join of the
updated items, and leaves edit mode.  Guards that the corresponding DOM
handler could not fire (clicking an item that does not exist, blurring an
item that is not editing) make the event a no-op. -/
def stepApp (s : AppState) (e : Ev) : AppState :=
  match e with
  | .extractDone p items =>
      { pages := setPage s.pages p { textItems := items, editingIndex := (s.pages p).editingIndex }
        pagesData := setPageData s.pagesData p (rawJoin items) }
  | .clickItem p idx sel =>
      if sel then s
      else if idx < (s.pages p).textItems.length then
        { s with pages := setPage s.pages p { s.pages p with editingIndex := some idx } }
      else s
  | .blurCommit p idx v =>
      if (s.pages p).editingIndex = some idx then
        let items := handleItemChangeItems (s.pages p).textItems idx v
        { pages := setPage s.pages p { textItems := items, editingIndex := none }
          pagesData := setPageData s.pagesData p (rawJoin items) }
      else s

/-- The initial state: no page has items, no page is editing, nothing
published. -/
def initApp : AppState :=
  { pages := fun _ => { textItems := [], editingIndex := none }
    pagesData := fun _ => none }

/-- Run a sequence of events from the initial state. -/
def runApp (evs : List Ev) : AppState :=
  evs.foldl stepApp initApp

/-- Page `p`'s run `i` is in the `Editing` state in `s`. -/
def isEditing (s : AppState) (p i : Nat) : Prop :=
  (s.pages p).editingIndex = some i

instance (s : AppState) (p i : Nat) : Decidable (isEditing s p i) := by
  unfold isEditing; infer_instance

/-! ## Definitions: reflow / export engine (src/services/pdfService.ts
`generatePdfFromContent`, src/unnamed/part_002 `generatePdfFromText`,
src/unnamed/part_001 `handleDownload`) -/

/-- One output placement produced by the reflow engine: the line's string,
the 0-based output page it lands on, and its baseline Y on that page. -/
structure LayoutLine where
  content : String
  pageIndex : Nat
  y : Int
deriving DecidableEq, Repr, Inhabited

/-- The constants of `generatePdfFromContent` (src/services/pdfService.ts
lines 39-48): the horizontal margin, the line height, and the top/bottom
margin used for the vertical cursor. -/
def marginC : Int := 15

def lineHeightC : Int := 6

def bottomMarginC : Int := 20

/-- Emit one wrapped line (src/services/pdfService.ts lines 60-67): if the
cursor has moved past `pageHeight - bottomMargin`, start a new output page
with the cursor reset to 20; then place the line at the cursor and advance by
`lineHeight`.  State: (emitted lines, current output page, cursor). -/
def emitLine (pageHeight : Int) (st : List LayoutLine × Nat × Int) (line : String) :
    List LayoutLine × Nat × Int :=
  let (out, pg, cy) := st
  if cy > pageHeight - bottomMarginC then
    (out ++ [⟨line, pg + 1, 20⟩], pg + 1, 20 + lineHeightC)
  else
    (out ++ [⟨line, pg, cy⟩], pg, cy + lineHeightC)

/-- Emit one paragraph (src/services/pdfService.ts lines 58-69): wrap it with
the external `splitTextToSize` (the parameter `split`), emit each wrapped
line, then advance the cursor by `lineHeight * 0.5` (= 3 exactly). -/
def emitParagraph (pageHeight : Int) (split : String → List String)
    (st : List LayoutLine × Nat × Int) (para : String) : List LayoutLine × Nat × Int :=
  let st := (split para).foldl (emitLine pageHeight) st
  (st.1, st.2.1, st.2.2 + lineHeightC / 2)

/-- Model of JavaScript `text.split('\n')` by structural recursion on the
character list: splitting at every `'\n'`, with `"".split('\n') = [""]` and a
trailing `'\n'` producing a trailing empty piece, exactly as in JS. -/
def splitNlChars : List Char → List (List Char)
  | [] => [[]]
  | c :: cs =>
    match splitNlChars cs with
    | [] => [[c]]
    | h :: t => if c = '\n' then [] :: h :: t else (c :: h) :: t

def splitNl (s : String) : List String :=
  (splitNlChars s.data).map String.mk

/-- Emit one source page (src/services/pdfService.ts lines 50-69): for every
source page after the first, force a new output page with the cursor reset to
20; split the page's text on explicit line breaks (`text.split('\n')`) and
emit each paragraph. -/
def emitPage (pageHeight : Int) (split : String → List String)
    (st : List LayoutLine × Nat × Int) (ip : Nat × String) : List LayoutLine × Nat × Int :=
  let st := if ip.1 > 0 then (st.1, st.2.1 + 1, 20) else st
  (splitNl ip.2).foldl (emitParagraph pageHeight split) st

/-- The whole layout of `generatePdfFromContent`
(src/services/pdfService.ts lines 35-73): cursor starts at 20, pages are
processed in order with their index.  `pageHeight` comes from jsPDF
(`doc.internal.pageSize.getHeight()`, ≈ 297 for the default A4) and `split`
is the external jsPDF `splitTextToSize`; both are parameters. -/
def layoutContent (pageHeight : Int) (split : String → List String)
    (pages : List String) : List LayoutLine :=
  ((pages.enum).foldl (emitPage pageHeight split) ([], 0, 20)).1

/-- The layout of `generatePdfFromText` (src/unnamed/part_002 lines 62-92):
the whole text is wrapped by a single `splitTextToSize` call and the lines
are emitted with the same cursor logic, with no paragraph handling. -/
def layoutText (pageHeight : Int) (split : String → List String)
    (text : String) : List LayoutLine :=
  ((split text).foldl (emitLine pageHeight) ([], 0, 20)).1

/-- `handleDownload` of the first `App` (src/unnamed/part_001 lines 127-130):

```js
if (!editorText) return;
generatePdfFromText(editorText, ...);
```

`!editorText` is true exactly for the empty string, so export happens for
every non-empty body; `none` models the early return (no document saved),
`some` the produced document. -/
def handleDownloadM (pageHeight : Int) (split : String → List String)
    (editorText : String) : Option (List LayoutLine) :=
  if editorText = "" then none
  else some (layoutText pageHeight split editorText)

/-! ## Definitions: AI rewrite path (src/unnamed/part_001,
`generateCompletion` / `performActionOnText` / `handleAiAction`) -/

/-- Outcome of one call to the external Gemini API. -/
inductive ApiOutcome where
  | ok (text : String)
  | err (msg : String)

/-- `generateCompletion` (src/unnamed/part_001 lines 398-421): on success it
returns `response.text || "No response generated."`; on any thrown error it
catches and returns the string `` `Error: ${message}` `` — it does not
rethrow. -/
def generateCompletion (outcome : ApiOutcome) : String :=
  match outcome with
  | .ok t => if t = "" then "No response generated." else t
  | .err m => "Error: " ++ m

/-- `performActionOnText` (src/unnamed/part_001 lines 423-452) builds an
instruction prompt from the action and delegates to `generateCompletion`;
its result on a given API outcome is `generateCompletion outcome`. -/
def performActionOnTextM (outcome : ApiOutcome) : String :=
  generateCompletion outcome

/-- Model of the guard `!editorText.trim()`: the string consists only of
whitespace characters (`trim` removes leading and trailing whitespace, so its
result is empty exactly when every character is whitespace). -/
def isBlank (s : String) : Bool :=
  s.data.all (·.isWhitespace)

/-- The effect of `handleAiAction` (src/unnamed/part_001 lines 77-89) on the
editor text: a no-op on blank text (`if (!editorText.trim()) return;`),
otherwise the editor text becomes the result of `performActionOnText`
(`setEditorText(result)`).  Its `catch` branch (alert, text untouched) runs
only if `performActionOnText` throws, which `generateCompletion`'s internal
catch prevents. -/
def handleAiActionText (editorText : String) (outcome : ApiOutcome) : String :=
  if isBlank editorText then editorText
  else performActionOnTextM outcome

/-- A concrete `TextItem` for examples: content plus the two translation
entries of its transform (nominal scale 10, no skew). -/
def mkItem (s : String) (x y : Int) : TextItem :=
  ⟨s, "ltr", 0, 0, ⟨10, 0, 0, 10, x, y⟩, "F0", true⟩

/-- The consistency invariant of the published page texts: every published
`pagesData` entry is the raw-order space-join of that page's current items. -/
def pagesDataConsistent (s : AppState) : Prop :=
  ∀ p, s.pagesData p = none ∨
    s.pagesData p = some (rawJoin ((s.pages p).textItems))

/-- Invariant of the reflow cursor state: the cursor is at least 20 and every
emitted line's baseline lies between 20 and `max 20 (pageHeight - 20)`. -/
def linesOk (pageHeight : Int) (st : List LayoutLine × Nat × Int) : Prop :=
  20 ≤ st.2.2 ∧ ∀ l ∈ st.1, 20 ≤ l.y ∧ l.y ≤ max 20 (pageHeight - 20)

/-! ## Helper lemmas -/

theorem foldl_preserve {α β : Type _} {P : α → Prop} {f : α → β → α}
    (hf : ∀ a b, P a → P (f a b)) :
    ∀ (l : List β) (a : α), P a → P (l.foldl f a) := by
  intro l
  induction l with
  | nil => intro a ha; exact ha
  | cons b l ih => intro a ha; exact ih (f a b) (hf a b ha)

theorem mabs_le_iff (d c : Int) : mabs d ≤ c ↔ d ≤ c ∧ -d ≤ c := by
  unfold mabs; split <;> omega

theorem mabs_gt_iff (d c : Int) : mabs d > c ↔ d > c ∨ -d > c := by
  unfold mabs; split <;> omega

theorem sameLine_iff (u v : RunItem) :
    sameLine u v ↔ u.y - v.y ≤ 5 ∧ v.y - u.y ≤ 5 := by
  unfold sameLine mabs; split <;> (constructor <;> (intro h; omega))

theorem sameLine_symm {u v : RunItem} (h : sameLine u v) : sameLine v u := by
  rw [sameLine_iff] at *; omega

theorem runCmp_of_sameLine {u v : RunItem} (h : sameLine u v) :
    runCmp u v = u.x - v.x := by
  unfold runCmp
  rw [if_neg]
  unfold sameLine at h; omega

theorem runCmp_of_not_sameLine {u v : RunItem} (h : ¬sameLine u v) :
    runCmp u v = v.y - u.y := by
  unfold runCmp
  rw [if_pos]
  unfold sameLine at h; omega

theorem runCmp_total (a b : RunItem) : runCmp a b ≤ 0 ∨ runCmp b a ≤ 0 := by
  by_cases h : sameLine a b
  · rw [runCmp_of_sameLine h, runCmp_of_sameLine (sameLine_symm h)]; omega
  · have h' : ¬sameLine b a := fun hba => h (sameLine_symm hba)
    rw [runCmp_of_not_sameLine h, runCmp_of_not_sameLine h']; omega

/-- Transitivity of the comparator's "not after" relation, valid whenever the
same-line relation is transitive among the runs involved. -/
theorem runCmp_trans_local {S : RunItem → Prop}
    (H : ∀ x, S x → ∀ y, S y → ∀ z, S z → sameLine x y → sameLine y z → sameLine x z)
    {x y z : RunItem} (hx : S x) (hy : S y) (hz : S z)
    (h1 : runCmp x y ≤ 0) (h2 : runCmp y z ≤ 0) : runCmp x z ≤ 0 := by
  by_cases sxy : sameLine x y <;> by_cases syz : sameLine y z
  · have sxz : sameLine x z := H x hx y hy z hz sxy syz
    rw [runCmp_of_sameLine sxy] at h1
    rw [runCmp_of_sameLine syz] at h2
    rw [runCmp_of_sameLine sxz]; omega
  · have sxz : ¬sameLine x z := by
      intro hxz
      exact syz (H y hy x hx z hz (sameLine_symm sxy) hxz)
    rw [runCmp_of_sameLine sxy] at h1
    rw [runCmp_of_not_sameLine syz] at h2
    rw [runCmp_of_not_sameLine sxz]
    rw [sameLine_iff] at sxy
    unfold sameLine at syz
    rw [mabs_le_iff] at syz
    omega
  · have sxz : ¬sameLine x z := by
      intro hxz
      exact sxy (H x hx z hz y hy hxz (sameLine_symm syz))
    rw [runCmp_of_not_sameLine sxy] at h1
    rw [runCmp_of_sameLine syz] at h2
    rw [runCmp_of_not_sameLine sxz]
    rw [sameLine_iff] at syz
    unfold sameLine at sxy
    rw [mabs_le_iff] at sxy
    omega
  · have hxy5 : x.y - y.y > 5 := by
      rw [runCmp_of_not_sameLine sxy] at h1
      unfold sameLine at sxy
      rw [mabs_le_iff] at sxy
      omega
    have hyz5 : y.y - z.y > 5 := by
      rw [runCmp_of_not_sameLine syz] at h2
      unfold sameLine at syz
      rw [mabs_le_iff] at syz
      omega
    have sxz : ¬sameLine x z := by
      rw [sameLine_iff]; omega
    rw [runCmp_of_not_sameLine sxz]; omega

theorem jsInsert_perm (a : RunItem) (l : List RunItem) :
    List.Perm (jsInsert a l) (a :: l) := by
  induction l with
  | nil => rfl
  | cons b l ih =>
    unfold jsInsert
    split
    · exact List.Perm.refl _
    · exact List.Perm.trans (List.Perm.cons b ih) (List.Perm.swap a b l)

theorem jsSort_perm (l : List RunItem) : List.Perm (jsSort l) l := by
  induction l with
  | nil => rfl
  | cons a l ih =>
    exact List.Perm.trans (jsInsert_perm a (jsSort l)) (List.Perm.cons a ih)

theorem pairwise_jsInsert {S : RunItem → Prop}
    (H : ∀ x, S x → ∀ y, S y → ∀ z, S z → sameLine x y → sameLine y z → sameLine x z)
    (a : RunItem) (ha : S a) (l : List RunItem) (hl : ∀ x ∈ l, S x)
    (hp : l.Pairwise (fun u v => runCmp u v ≤ 0)) :
    (jsInsert a l).Pairwise (fun u v => runCmp u v ≤ 0) := by
  induction l with
  | nil => simp [jsInsert]
  | cons b l ih =>
    have hb : S b := hl b (by simp)
    have hl' : ∀ x ∈ l, S x := fun x hx => hl x (by simp [hx])
    rw [List.pairwise_cons] at hp
    unfold jsInsert
    by_cases hc : runCmp a b ≤ 0
    · rw [if_pos hc, List.pairwise_cons]
      refine ⟨?_, List.pairwise_cons.mpr hp⟩
      intro c hc'
      rcases List.mem_cons.mp hc' with rfl | hcl
      · exact hc
      · exact runCmp_trans_local H ha hb (hl' c hcl) hc (hp.1 c hcl)
    · rw [if_neg hc, List.pairwise_cons]
      have hba : runCmp b a ≤ 0 := by
        rcases runCmp_total a b with h | h
        · exact absurd h hc
        · exact h
      refine ⟨?_, ih hl' hp.2⟩
      intro c hc'
      rcases List.mem_cons.mp ((jsInsert_perm a l).mem_iff.mp hc') with h | h
      · subst h; exact hba
      · exact hp.1 c h

theorem pairwise_jsSort {S : RunItem → Prop}
    (H : ∀ x, S x → ∀ y, S y → ∀ z, S z → sameLine x y → sameLine y z → sameLine x z)
    (l : List RunItem) (hl : ∀ x ∈ l, S x) :
    (jsSort l).Pairwise (fun u v => runCmp u v ≤ 0) := by
  induction l with
  | nil => simp [jsSort]
  | cons a l ih =>
    have hl' : ∀ x ∈ l, S x := fun x hx => hl x (by simp [hx])
    exact pairwise_jsInsert H a (hl a (by simp)) (jsSort l)
      (fun x hx => hl' x ((jsSort_perm l).mem_iff.mp hx)) (ih hl')

/-! ## Claim theorems -/

/-- C9: on the three runs `{str:"Hello", y:100, x:0}`, `{str:"World", y:100,
x:50}`, `{str:"Next", y:50, x:0}`, the reconstructor of `extractTextFromPdf`
(thresholds 5/10/100) produces exactly the page text `"Hello World\nNext"` —
a space between `Hello` and `World`, a single line break before `Next`. -/
theorem C9_scenario_hello_world_next :
    pageTextOf [⟨"Hello", 0, 100⟩, ⟨"World", 50, 100⟩, ⟨"Next", 0, 50⟩] =
      "Hello World\nNext" := by
  decide

/-- C1: the claim says a gap of more than 100 units inserts a paragraph break
(double line-break) and only otherwise a gap of more than 10 units inserts a
single break.  The code checks `> 10` first, so the `> 100` branch — whose
own comment says `Very large gap` — is unreachable: the walk never inserts a
double line-break, and on two runs 200 units apart it inserts a single
`"\n"` where the claim (and the spec's §4.3 ordering) require `"\n\n"`. -/
theorem C1_double_break_branch_dead :
    (∀ lastY acc y, sepChoice lastY acc y ≠ "\n\n") ∧
    pageTextOf [⟨"A", 0, 200⟩, ⟨"B", 0, 0⟩] = "A\nB" := by
  refine ⟨?_, by decide⟩
  intro lastY acc y
  unfold sepChoice
  by_cases h10 : gapOver lastY y 10
  · rw [if_pos h10]; decide
  · rw [if_neg h10]
    by_cases h100 : gapOver lastY y 100
    · exfalso
      cases lastY with
      | none => simp [gapOver] at h100
      | some ly =>
        simp only [gapOver, decide_eq_true_eq] at h10 h100
        rw [mabs_gt_iff] at h10 h100
        omega
    · rw [if_neg h100]
      split <;> decide

/-- C8 (counterexample): with the three runs `(x,y) = (0,0), (1,4), (2,8)`
the same-line relation (|ΔY| ≤ 5) is not transitive, and NO ordering of the
three runs — in particular not the one the sort produces — satisfies the
claimed output property (X non-decreasing among same-line pairs and Y
non-increasing across line groups): runs 1 and 2 and runs 2 and 3 are
same-line and force ascending X, while runs 1 and 3 are different-line and
force descending Y, a cycle. -/
theorem C8_counterexample_nontransitive_lines :
    ¬ (jsSort [⟨"A", 0, 0⟩, ⟨"B", 1, 4⟩, ⟨"C", 2, 8⟩]).Pairwise orderedOut ∧
    ∀ l ∈ ([[⟨"A", 0, 0⟩, ⟨"B", 1, 4⟩, ⟨"C", 2, 8⟩],
            [⟨"A", 0, 0⟩, ⟨"C", 2, 8⟩, ⟨"B", 1, 4⟩],
            [⟨"B", 1, 4⟩, ⟨"A", 0, 0⟩, ⟨"C", 2, 8⟩],
            [⟨"B", 1, 4⟩, ⟨"C", 2, 8⟩, ⟨"A", 0, 0⟩],
            [⟨"C", 2, 8⟩, ⟨"A", 0, 0⟩, ⟨"B", 1, 4⟩],
            [⟨"C", 2, 8⟩, ⟨"B", 1, 4⟩, ⟨"A", 0, 0⟩]] : List (List RunItem)),
      ¬ l.Pairwise orderedOut := by
  decide

/-- C8 (amended): the reconstructor sorts with the comparator (descending Y,
ties with |ΔY| ≤ 5 broken by ascending X); whenever the same-line relation is
transitive on the page's runs — so the heuristic's line groups are well
defined — every pair of the output in order satisfies: same-line pairs have
non-decreasing X and different-line pairs have non-increasing Y. -/
theorem C8_reading_order_amended (items : List RunItem)
    (H : ∀ x ∈ items, ∀ y ∈ items, ∀ z ∈ items,
      sameLine x y → sameLine y z → sameLine x z) :
    (jsSort items).Pairwise orderedOut := by
  have hp := pairwise_jsSort (S := fun r => r ∈ items)
    (fun x hx y hy z hz => H x hx y hy z hz) items (fun x hx => hx)
  refine hp.imp ?_
  intro u v h
  constructor
  · intro hs
    have := runCmp_of_sameLine hs
    omega
  · intro hn
    have := runCmp_of_not_sameLine hn
    omega

/-- Witness for C8 (amended) at the concrete runs of scenario A, whose
same-line relation is transitive. -/
theorem C8_reading_order_amended_witness :
    (∀ x ∈ ([⟨"Hello", 0, 100⟩, ⟨"World", 50, 100⟩, ⟨"Next", 0, 50⟩] : List RunItem),
     ∀ y ∈ ([⟨"Hello", 0, 100⟩, ⟨"World", 50, 100⟩, ⟨"Next", 0, 50⟩] : List RunItem),
     ∀ z ∈ ([⟨"Hello", 0, 100⟩, ⟨"World", 50, 100⟩, ⟨"Next", 0, 50⟩] : List RunItem),
      sameLine x y → sameLine y z → sameLine x z) ∧
    (jsSort [⟨"Hello", 0, 100⟩, ⟨"World", 50, 100⟩, ⟨"Next", 0, 50⟩]).Pairwise orderedOut :=
  ⟨by decide, C8_reading_order_amended _ (by decide)⟩

theorem stepApp_consistent (s : AppState) (e : Ev) (h : pagesDataConsistent s) :
    pagesDataConsistent (stepApp s e) := by
  cases e with
  | extractDone p items =>
    intro q
    by_cases hq : q = p
    · subst hq
      right
      simp [stepApp, setPage, setPageData]
    · rcases h q with hnone | hjoin
      · left; simpa [stepApp, setPage, setPageData, hq] using hnone
      · right; simpa [stepApp, setPage, setPageData, hq] using hjoin
  | clickItem p idx sel =>
    intro q
    by_cases hsel : sel
    · simpa [stepApp, hsel] using h q
    · by_cases hidx : idx < (s.pages p).textItems.length
      · by_cases hq : q = p
        · subst hq
          rcases h q with hnone | hjoin
          · left; simpa [stepApp, hsel, hidx, setPage] using hnone
          · right; simpa [stepApp, hsel, hidx, setPage] using hjoin
        · rcases h q with hnone | hjoin
          · left; simpa [stepApp, hsel, hidx, setPage, hq] using hnone
          · right; simpa [stepApp, hsel, hidx, setPage, hq] using hjoin
      · simpa [stepApp, hsel, hidx] using h q
  | blurCommit p idx v =>
    intro q
    by_cases hed : (s.pages p).editingIndex = some idx
    · by_cases hq : q = p
      · subst hq
        right
        simp [stepApp, hed, setPage, setPageData]
      · rcases h q with hnone | hjoin
        · left; simpa [stepApp, hed, setPage, setPageData, hq] using hnone
        · right; simpa [stepApp, hed, setPage, setPageData, hq] using hjoin
    · simpa [stepApp, hed] using h q

theorem runApp_consistent (evs : List Ev) : pagesDataConsistent (runApp evs) := by
  unfold runApp
  refine foldl_preserve (fun s e hs => stepApp_consistent s e hs) evs initApp ?_
  intro p
  left
  rfl

/-- C3 (counterexample): after extraction of two runs arriving in
right-to-left order, `EditablePage` publishes `items.map(i => i.str).join(' ')`
— the raw extraction order — so the document-text entry is `"World Hello"`,
while the reading-order reconstruction of the same runs is `"Hello World"`.
The claimed invariant (entry always equals the reading-order text, never the
raw-order text) is false at this reachable state. -/
theorem C3_counterexample_raw_vs_reading_order :
    (runApp [.extractDone 1 [mkItem "World" 50 100, mkItem "Hello" 0 100]]).pagesData 1 =
      some "World Hello" ∧
    readingOrderTextOf [mkItem "World" 50 100, mkItem "Hello" 0 100] = "Hello World" ∧
    ("World Hello" : String) ≠ "Hello World" := by
  decide

/-- C3 (amended): at every reachable instant, every published document-text
entry equals the space-join of that page's current items in their raw stored
(extraction) order — `items.map(i => i.str).join(' ')` — both when the page
first publishes after extraction and after every committed edit; the
reading-order reconstruction is not applied on this path. -/
theorem C3_raw_order_join_invariant (evs : List Ev) (p : Nat) :
    (runApp evs).pagesData p = none ∨
    (runApp evs).pagesData p = some (rawJoin ((runApp evs).pages p).textItems) :=
  runApp_consistent evs p

/-- C4 (counterexample): each `EditablePage` owns its own `editingIndex`, and
nothing in the code clears another page's index when a run is activated; after
clicking one run on page 1 and one run on page 2 (with no blur event delivered
in between), both `(1, 0)` and `(2, 0)` are in the `Editing` state — two
distinct pairs at once, refuting global exclusivity. -/
theorem C4_counterexample_two_pages_editing :
    isEditing (runApp [.extractDone 1 [mkItem "Hi" 0 0], .extractDone 2 [mkItem "Yo" 0 0],
      .clickItem 1 0 false, .clickItem 2 0 false]) 1 0 ∧
    isEditing (runApp [.extractDone 1 [mkItem "Hi" 0 0], .extractDone 2 [mkItem "Yo" 0 0],
      .clickItem 1 0 false, .clickItem 2 0 false]) 2 0 ∧
    ((1, 0) : Nat × Nat) ≠ (2, 0) := by
  decide

/-- C4 (amended): exclusivity is per page, not global: each page's
`editingIndex` holds at most one run index, so within one page at most one
run is ever in the `Editing` state; and activating editing on one page leaves
every other page's state (and published text) untouched, so the component
state enforces no cross-page exclusivity. -/
theorem C4_per_page_exclusivity :
    (∀ evs p i j, isEditing (runApp evs) p i → isEditing (runApp evs) p j → i = j) ∧
    (∀ s p idx sel q, q ≠ p →
      (stepApp s (.clickItem p idx sel)).pages q = s.pages q ∧
      (stepApp s (.clickItem p idx sel)).pagesData q = s.pagesData q) := by
  constructor
  · intro evs p i j hi hj
    unfold isEditing at hi hj
    exact Option.some.inj (hi.symm.trans hj)
  · intro s p idx sel q hq
    by_cases hsel : sel
    · simp [stepApp, hsel]
    · by_cases hidx : idx < (s.pages p).textItems.length
      · constructor <;> simp [stepApp, hsel, hidx, setPage, hq]
      · simp [stepApp, hsel, hidx]

/-- Witness for C4 (amended): page 1 editing run 0 twice gives `0 = 0`, and a
click on page 1 does not change page 2's state. -/
theorem C4_per_page_exclusivity_witness :
    (0 : Nat) = 0 ∧
    (stepApp initApp (.clickItem 1 0 false)).pages 2 = initApp.pages 2 :=
  ⟨C4_per_page_exclusivity.1 [.extractDone 1 [mkItem "Hi" 0 0], .clickItem 1 0 false]
      1 0 0 (by decide) (by decide),
    (C4_per_page_exclusivity.2 initApp 1 0 false 2 (by decide)).1⟩

/-- C5 (counterexample): for an item with `transform = [2, 0, 0, 3, 0, 0]`
(scale-x entry `a = 2`, scale-y entry `d = 3`) at zoom 1 and converted
viewport point `(0, 10)`, the element's top is `10 - 2*1 = 8`, whereas the
claimed formula `transformedY - |scaleY| * scaleFactor` gives `10 - 3 = 7`:
the code derives the approximate height from `transform[0]` (scale-x), not
from `|transform.scaleY|`. -/
theorem C5_height_counterexample :
    (renderItemStyle ⟨"t", "ltr", 0, 0, ⟨2, 0, 0, 3, 0, 0⟩, "F0", true⟩ 1 (0, 10)).top = 8 ∧
    (10 : Rat) - |((3 : Int) : Rat)| * 1 = 7 ∧
    ((8 : Rat) ≠ 7) := by
  refine ⟨?_, by norm_num, by norm_num⟩
  norm_num [renderItemStyle]

/-- C5 (amended): the approximate glyph height used by the overlay equals
`transform[0] * scale` — the scale-x entry `a`, with no absolute value — and
the element's top equals the transformed Y minus this height (so a negative
scale-x yields a negative height, as the instance shows). -/
theorem C5_height_amended (item : TextItem) (scale : Rat) (v : Rat × Rat) :
    ((renderItemStyle item scale v).fontSize = (item.transform.a : Rat) * scale ∧
     (renderItemStyle item scale v).top =
       v.2 - (item.transform.a : Rat) * scale) ∧
    (renderItemStyle ⟨"t", "ltr", 0, 0, ⟨-2, 0, 0, 3, 0, 0⟩, "F0", true⟩ 1 (0, 10)).fontSize
      = -2 := by
  refine ⟨⟨rfl, rfl⟩, ?_⟩
  norm_num [renderItemStyle]

theorem emitLine_ok (pageHeight : Int) (st : List LayoutLine × Nat × Int) (line : String)
    (h : linesOk pageHeight st) : linesOk pageHeight (emitLine pageHeight st line) := by
  obtain ⟨out, pg, cy⟩ := st
  unfold linesOk at h
  dsimp only at h
  obtain ⟨hcy, hlines⟩ := h
  unfold emitLine
  dsimp only
  unfold linesOk
  by_cases hbr : cy > pageHeight - bottomMarginC
  · rw [if_pos hbr]
    dsimp only
    refine ⟨by norm_num [lineHeightC], ?_⟩
    intro l hl
    rcases List.mem_append.mp hl with hl | hl
    · exact hlines l hl
    · rw [List.mem_singleton] at hl
      subst hl
      exact ⟨le_refl _, le_max_left _ _⟩
  · rw [if_neg hbr]
    dsimp only
    unfold bottomMarginC at hbr
    refine ⟨by unfold lineHeightC; omega, ?_⟩
    intro l hl
    rcases List.mem_append.mp hl with hl | hl
    · exact hlines l hl
    · rw [List.mem_singleton] at hl
      subst hl
      exact ⟨hcy, le_trans (show cy ≤ pageHeight - 20 by omega) (le_max_right _ _)⟩

theorem emitParagraph_ok (pageHeight : Int) (split : String → List String)
    (st : List LayoutLine × Nat × Int) (para : String)
    (h : linesOk pageHeight st) :
    linesOk pageHeight (emitParagraph pageHeight split st para) := by
  have h1 : linesOk pageHeight ((split para).foldl (emitLine pageHeight) st) :=
    foldl_preserve (fun a b ha => emitLine_ok pageHeight a b ha) (split para) st h
  unfold linesOk at h1
  obtain ⟨hcy, hlines⟩ := h1
  unfold emitParagraph linesOk
  dsimp only
  exact ⟨by unfold lineHeightC; omega, hlines⟩

theorem emitPage_ok (pageHeight : Int) (split : String → List String)
    (st : List LayoutLine × Nat × Int) (ip : Nat × String)
    (h : linesOk pageHeight st) :
    linesOk pageHeight (emitPage pageHeight split st ip) := by
  unfold emitPage
  dsimp only
  refine foldl_preserve (fun a b ha => emitParagraph_ok pageHeight split a b ha) _ _ ?_
  by_cases hip : ip.1 > 0
  · rw [if_pos hip]
    exact ⟨le_refl _, h.2⟩
  · rw [if_neg hip]
    exact h

theorem layoutContent_lines_ok (pageHeight : Int) (split : String → List String)
    (pages : List String) :
    ∀ l ∈ layoutContent pageHeight split pages,
      20 ≤ l.y ∧ l.y ≤ max 20 (pageHeight - 20) := by
  have h : linesOk pageHeight ((pages.enum).foldl (emitPage pageHeight split) ([], 0, 20)) :=
    foldl_preserve (fun a b ha => emitPage_ok pageHeight split a b ha) _ _
      ⟨le_refl _, by intro l hl; cases hl⟩
  exact h.2

/-- C6 (counterexample): the vertical cursor of `generatePdfFromContent`
starts at 20 (the `bottomMargin` constant), not at the constant named
`margin` (= 15): a one-line body is placed at baseline 20 ≠ 15.  And even
reading the claim's `margin` as the vertical constant 20, the boundary part
fails: with `pageHeight = 100`, a body of `pageHeight - 2*20 = 60` units
worth of lines is 10 lines, and a body of 11 lines — one line beyond —
still fits entirely on one output page (the 11th line lands exactly at
`pageHeight - 20`, which the strict `>` check admits), instead of forcing a
second page. -/
theorem C6_cursor_counterexample :
    layoutContent 100 (fun s => [s]) ["hi"] = [⟨"hi", 0, 20⟩] ∧
    marginC = 15 ∧ ((20 : Int) ≠ 15) ∧
    (layoutContent 100 (fun s => List.replicate 11 s) ["x"]).map (·.pageIndex) =
      List.replicate 11 0 := by
  refine ⟨by decide, rfl, by decide, by decide⟩

/-- C6 (amended): the vertical cursor starts at 20 — the `bottomMargin`
constant, distinct from the horizontal `margin` = 15 — on every output page
including the first, and a new output page starts exactly when the cursor
strictly exceeds `pageHeight - 20` as a line is about to be emitted; hence
every line's baseline lies between 20 and `pageHeight - 20` (for page heights
of at least 40), a single-paragraph body of `pageHeight - 2*20` worth of
lines (10 lines at `pageHeight = 100`) fits on one output page, one line
beyond it still fits on the same page, and two lines beyond force a second
page. -/
theorem C6_cursor_and_boundary_amended :
    (∀ pageHeight split pages, ∀ l ∈ layoutContent pageHeight split pages,
      20 ≤ l.y ∧ l.y ≤ max 20 (pageHeight - 20)) ∧
    (layoutContent 100 (fun s => List.replicate 10 s) ["x"]).map (·.pageIndex) =
      List.replicate 10 0 ∧
    (layoutContent 100 (fun s => List.replicate 11 s) ["x"]).map (·.pageIndex) =
      List.replicate 11 0 ∧
    (layoutContent 100 (fun s => List.replicate 12 s) ["x"]).map (·.pageIndex) =
      List.replicate 11 0 ++ [1] :=
  ⟨fun pageHeight split pages => layoutContent_lines_ok pageHeight split pages,
    by decide, by decide, by decide⟩

/-- Witness for C6 (amended): the single emitted line of a one-line body at
`pageHeight = 100` satisfies the cursor bounds. -/
theorem C6_cursor_and_boundary_amended_witness :
    ((⟨"hi", 0, 20⟩ : LayoutLine) ∈ layoutContent 100 (fun s => [s]) ["hi"]) ∧
    (20 ≤ (⟨"hi", 0, 20⟩ : LayoutLine).y ∧
      (⟨"hi", 0, 20⟩ : LayoutLine).y ≤ max 20 (100 - 20)) :=
  ⟨by decide, C6_cursor_and_boundary_amended.1 100 (fun s => [s]) ["hi"] _ (by decide)⟩

/-- C7 (counterexample): the export guard is `if (!editorText) return;`,
which only stops the empty string: the whitespace-only body `" "` is blank
but non-empty, and export does produce an output document for it (here one
page with the single line `" "`), contradicting the claim that export is a
no-op for every whitespace-only body. -/
theorem C7_whitespace_body_exported :
    isBlank " " = true ∧ (" " : String) ≠ "" ∧
    handleDownloadM 100 (fun s => [s]) " " = some [⟨" ", 0, 20⟩] := by
  decide

/-- C7 (amended): export is a no-op — no output document, no error — exactly
when the body is the empty string; a whitespace-only non-empty body is
exported and produces an output document. -/
theorem C7_export_empty_amended :
    (∀ pageHeight split text,
      handleDownloadM pageHeight split text = none ↔ text = "") ∧
    (handleDownloadM 100 (fun s => [s]) " ").isSome = true := by
  constructor
  · intro pageHeight split text
    unfold handleDownloadM
    by_cases h : text = ""
    · simp [h]
    · simp [h]
  · decide

/-- C2: when the rewrite call fails, `generateCompletion` catches the error
and RETURNS the string `` `Error: ${message}` `` as if it were a completion;
`handleAiAction` then stores that result with `setEditorText(result)`, so the
editor text is overwritten by the error string rather than left unchanged
(the claim, the spec's Scenario C, and `handleAiAction`'s own unreachable
`catch`-and-alert branch all expect the text to stay as it was). -/
theorem C2_service_error_overwrites_text :
    (∀ msg, handleAiActionText "Hello" (.err msg) = "Error: " ++ msg) ∧
    handleAiActionText "Hello" (.err "boom") = "Error: boom" ∧
    ("Error: boom" : String) ≠ "Hello" := by
  refine ⟨fun msg => ?_, by decide, by decide⟩
  unfold handleAiActionText
  rw [if_neg (by decide)]
  rfl

/-- C10: committing an edit on a run changes only that run's `content`
(`str`) field: the length of the sequence is unchanged, every other run is
unchanged, and the edited run keeps its `dir`, `width`, `height`,
`transform`, `fontName` and `hasEncoding` exactly — only `str` becomes the
new value. -/
theorem C10_commit_changes_only_str (items : List TextItem) (i : Nat) (v : String)
    (h : i < items.length) :
    (handleItemChangeItems items i v).length = items.length ∧
    (∀ j, j ≠ i → (handleItemChangeItems items i v)[j]? = items[j]?) ∧
    ∃ old, items[i]? = some old ∧
      (handleItemChangeItems items i v)[i]? =
        some { str := v, dir := old.dir, width := old.width, height := old.height,
               transform := old.transform, fontName := old.fontName,
               hasEncoding := old.hasEncoding } := by
  have hold : items[i]? = some (items[i]) := List.getElem?_eq_getElem h
  unfold handleItemChangeItems
  rw [hold]
  refine ⟨List.length_set items i _, ?_, items[i], rfl, ?_⟩
  · intro j hj
    exact List.getElem?_set_ne (Ne.symm hj)
  · exact List.getElem?_set_eq_of_lt _ h

/-- Witness for C10 at a concrete two-item page, editing item 0. -/
theorem C10_commit_changes_only_str_witness :
    0 < ([mkItem "a" 0 0, mkItem "b" 1 1] : List TextItem).length ∧
    ((handleItemChangeItems [mkItem "a" 0 0, mkItem "b" 1 1] 0 "z").length =
        ([mkItem "a" 0 0, mkItem "b" 1 1] : List TextItem).length ∧
      (∀ j, j ≠ 0 →
        (handleItemChangeItems [mkItem "a" 0 0, mkItem "b" 1 1] 0 "z")[j]? =
          ([mkItem "a" 0 0, mkItem "b" 1 1] : List TextItem)[j]?) ∧
      ∃ old, ([mkItem "a" 0 0, mkItem "b" 1 1] : List TextItem)[0]? = some old ∧
        (handleItemChangeItems [mkItem "a" 0 0, mkItem "b" 1 1] 0 "z")[0]? =
          some { str := "z", dir := old.dir, width := old.width, height := old.height,
                 transform := old.transform, fontName := old.fontName,
                 hasEncoding := old.hasEncoding }) :=
  ⟨by decide, C10_commit_changes_only_str [mkItem "a" 0 0, mkItem "b" 1 1] 0 "z" (by decide)⟩

end PdfEditor
